import Mathlib

/-!
Verification of the three-body simulation in src/main.rs.

The numeric scalar type of the source is f64; the embedding is generic over a
field together with a record of the transcendental operations the source uses
(sqrt, atan2, cos, sin), so that every structural and arithmetic property is
settled in exact arithmetic. Instantiating the field at the rationals and the
operations at any computable functions makes every definition executable.
-/

/-- 2D vector, embedding the DVec2 type used for positions and velocities. -/
structure Vec2 (α : Type) where
  x : α
  y : α
  deriving DecidableEq

/-- The transcendental operations the source applies to its scalars,
abstracted as a record so the embedding is generic in them. -/
structure FloatOps (α : Type) where
  sqrt : α → α
  atan2 : α → α → α
  cos : α → α
  sin : α → α

/-- Embeds struct Body: a point mass with position and velocity. -/
structure Body (α : Type) where
  mass : α
  position : Vec2 α
  velocity : Vec2 α
  deriving DecidableEq

variable {α : Type}

/-- Embeds GRAVITATIONAL_CONSTANT = 6.67430e-11, written 667430 / 10 ^ 16. -/
def GRAVITATIONAL_CONSTANT [Field α] : α := 667430 / 10 ^ 16

/-- Embeds Body::new: mass 1.0, velocity the zero vector, given position. -/
def Body.new [Field α] (position : Vec2 α) : Body α :=
  { mass := 1, velocity := ⟨0, 0⟩, position := position }

/-- Embeds Body::update: advance the position by velocity * time_step. -/
def Body.update [Field α] (b : Body α) (time_step : α) : Body α :=
  { b with position := ⟨b.position.x + b.velocity.x * time_step,
                        b.position.y + b.velocity.y * time_step⟩ }

/-- Embeds struct Step: the full system state at one instant. The u32 tick
counter is modelled by its mathematical value as a natural number. -/
structure Step (α : Type) where
  time : α
  step : Nat
  bodies : Fin 3 → Body α

/-- Embeds Step::new: time 0, step 0, the three given bodies in order. -/
def Step.new (first second third : Body α) [Field α] : Step α :=
  { time := 0, step := 0, bodies := ![first, second, third] }

/-- Embeds Step::calculate_bodies: the force of body j on body i, accumulated
into the velocity of body i, all other state unchanged. -/
def Step.calculate_bodies [Field α] (ops : FloatOps α) (s : Step α)
    (i j : Fin 3) (time_step : α) : Step α :=
  let a := s.bodies j
  let b := s.bodies i
  let dx := a.position.x - b.position.x
  let dy := a.position.y - b.position.y
  let r := ops.sqrt (dx * dx + dy * dy)
  let force := GRAVITATIONAL_CONSTANT * a.mass * b.mass / r / r
  let angle := ops.atan2 dy dx
  let fx := force * ops.cos angle
  let fy := force * ops.sin angle
  let b2 := { b with velocity := ⟨b.velocity.x + fx / b.mass * time_step,
                                  b.velocity.y + fy / b.mass * time_step⟩ }
  { s with bodies := Function.update s.bodies i b2 }

/-- Embeds Step::calculate_step: the double loop for i in 0..3, for j in 0..3,
applying calculate_bodies whenever i != j, sequentially on the shared state. -/
def Step.calculate_step [Field α] (ops : FloatOps α) (s : Step α)
    (time_step : α) : Step α :=
  ([0, 1, 2] : List (Fin 3)).foldl
    (fun st i =>
      ([0, 1, 2] : List (Fin 3)).foldl
        (fun st2 j =>
          if i ≠ j then Step.calculate_bodies ops st2 i j time_step else st2)
        st)
    s

/-- Embeds Step::update: calculate_step, then Body::update on every body. -/
def Step.update [Field α] (ops : FloatOps α) (s : Step α)
    (time_step : α) : Step α :=
  let s1 := Step.calculate_step ops s time_step
  { s1 with bodies := fun k => Body.update (s1.bodies k) time_step }

/-- Embeds Step::next_step: advance the clock, keep the bodies. -/
def Step.next_step (s : Step α) [Field α] (time_step : α) : Step α :=
  { time := s.time + time_step, step := s.step + 1, bodies := s.bodies }

/-- Embeds fn simulate: run count ticks, pushing each updated Step. -/
def simulate [Field α] (ops : FloatOps α) (s : Step α) (count : Nat)
    (time_step : α) : List (Step α) :=
  match count with
  | 0 => []
  | Nat.succ n =>
    let s2 := Step.update ops s time_step
    s2 :: simulate ops (Step.next_step s2 time_step) n time_step

/-- Reference velocity increment of claim C1, modelled from the wording of the
claim (and section 4.1 of the specification): the increment added to body i
for the pair (i, j), with force G * mass[j] * mass[i] / r ^ 2. -/
def referenceCalculateBodies [Field α] (ops : FloatOps α) (s : Step α)
    (i j : Fin 3) (time_step : α) : Step α :=
  let dx := (s.bodies j).position.x - (s.bodies i).position.x
  let dy := (s.bodies j).position.y - (s.bodies i).position.y
  let r := ops.sqrt (dx ^ 2 + dy ^ 2)
  let force := GRAVITATIONAL_CONSTANT * (s.bodies j).mass * (s.bodies i).mass / r ^ 2
  let b := s.bodies i
  let b2 := { b with velocity :=
    ⟨b.velocity.x + force * ops.cos (ops.atan2 dy dx) / b.mass * time_step,
     b.velocity.y + force * ops.sin (ops.atan2 dy dx) / b.mass * time_step⟩ }
  { s with bodies := Function.update s.bodies i b2 }

/-- Reference velocity-update phase of claim C1: i over 0,1,2, j over 0,1,2
skipping j = i, sequentially mutating the shared bodies in index order. -/
def referenceVelocityPhase [Field α] (ops : FloatOps α) (s : Step α)
    (time_step : α) : Step α :=
  ([0, 1, 2] : List (Fin 3)).foldl
    (fun st i =>
      ([0, 1, 2] : List (Fin 3)).foldl
        (fun st2 j =>
          if i ≠ j then referenceCalculateBodies ops st2 i j time_step else st2)
        st)
    s

theorem calculate_bodies_eq_reference [Field α] (ops : FloatOps α) (s : Step α)
    (i j : Fin 3) (dt : α) :
    Step.calculate_bodies ops s i j dt = referenceCalculateBodies ops s i j dt := by
  simp only [Step.calculate_bodies, referenceCalculateBodies, pow_two, div_div]

/-- C1: the per-tick velocity-update phase of the code equals the reference
computation described by the claim: iterate i over 0,1,2 and j over 0,1,2
skipping j = i, sequentially mutating the shared bodies in place, adding the
increment ((G * mass[j] * mass[i] / r ^ 2) * cos(atan2 dy dx) / mass[i]) * dt
in x and the analogous sin term in y. -/
theorem C1_velocity_phase_eq_reference [Field α] (ops : FloatOps α)
    (s : Step α) (dt : α) :
    Step.calculate_step ops s dt = referenceVelocityPhase ops s dt := by
  simp [Step.calculate_step, referenceVelocityPhase,
    calculate_bodies_eq_reference]

theorem simulate_length [Field α] (ops : FloatOps α) (s : Step α)
    (count : Nat) (dt : α) :
    (simulate ops s count dt).length = count := by
  induction count generalizing s with
  | zero => rfl
  | succ n ih => simp [simulate, ih]

/-- C3: simulate returns a sequence of exactly count Step values. -/
theorem C3_simulate_length [Field α] (ops : FloatOps α) (s : Step α)
    (count : Nat) (dt : α) :
    (simulate ops s count dt).length = count :=
  simulate_length ops s count dt

/-- C10: simulate with tick count zero returns the empty sequence. -/
theorem C10_simulate_zero [Field α] (ops : FloatOps α) (s : Step α) (dt : α) :
    simulate ops s 0 dt = [] := rfl

theorem calculate_bodies_position_eq [Field α] (ops : FloatOps α) (s : Step α)
    (i j k : Fin 3) (dt : α) :
    ((Step.calculate_bodies ops s i j dt).bodies k).position
      = (s.bodies k).position := by
  simp only [Step.calculate_bodies, Function.update_apply]
  rcases eq_or_ne k i with h | h
  · simp [h]
  · simp [h]

theorem calculate_bodies_mass_eq [Field α] (ops : FloatOps α) (s : Step α)
    (i j k : Fin 3) (dt : α) :
    ((Step.calculate_bodies ops s i j dt).bodies k).mass
      = (s.bodies k).mass := by
  simp only [Step.calculate_bodies, Function.update_apply]
  rcases eq_or_ne k i with h | h
  · simp [h]
  · simp [h]

theorem calculate_step_position_eq [Field α] (ops : FloatOps α) (s : Step α)
    (k : Fin 3) (dt : α) :
    ((Step.calculate_step ops s dt).bodies k).position
      = (s.bodies k).position := by
  simp [Step.calculate_step, calculate_bodies_position_eq]

theorem calculate_step_mass_eq [Field α] (ops : FloatOps α) (s : Step α)
    (k : Fin 3) (dt : α) :
    ((Step.calculate_step ops s dt).bodies k).mass = (s.bodies k).mass := by
  simp [Step.calculate_step, calculate_bodies_mass_eq]

theorem update_time_eq [Field α] (ops : FloatOps α) (s : Step α) (dt : α) :
    (Step.update ops s dt).time = s.time := rfl

theorem update_step_eq [Field α] (ops : FloatOps α) (s : Step α) (dt : α) :
    (Step.update ops s dt).step = s.step := rfl

theorem simulate_get_step_time [Field α] (ops : FloatOps α) (dt : α) :
    ∀ (n : Nat) (s : Step α) (i : Nat) (h : i < (simulate ops s n dt).length),
      ((simulate ops s n dt).get ⟨i, h⟩).step = s.step + i ∧
      ((simulate ops s n dt).get ⟨i, h⟩).time = s.time + i * dt := by
  intro n
  induction n with
  | zero =>
    intro s i h
    simp [simulate] at h
  | succ m ih =>
    intro s i h
    cases i with
    | zero =>
      refine ⟨?_, ?_⟩
      · show (Step.update ops s dt).step = s.step + 0
        simp [update_step_eq]
      · show (Step.update ops s dt).time = s.time + (0 : Nat) * dt
        simp [update_time_eq]
    | succ k =>
      have h2 : k < (simulate ops (Step.next_step (Step.update ops s dt) dt) m dt).length := by
        have hl := h
        simp only [simulate, List.length_cons] at hl
        omega
      obtain ⟨hstep, htime⟩ := ih (Step.next_step (Step.update ops s dt) dt) k h2
      refine ⟨?_, ?_⟩
      · show ((simulate ops (Step.next_step (Step.update ops s dt) dt) m dt).get ⟨k, h2⟩).step
          = s.step + (k + 1)
        rw [hstep]
        simp only [Step.next_step, update_step_eq]
        omega
      · show ((simulate ops (Step.next_step (Step.update ops s dt) dt) m dt).get ⟨k, h2⟩).time
          = s.time + (k + 1 : Nat) * dt
        rw [htime]
        simp only [Step.next_step, update_time_eq]
        push_cast
        ring

/-- C4: from an initial Step with time 0 and step 0, the i-th element of the
output of simulate has step counter i and time i * dt (the additive
accumulation time + dt per tick sums, in exact arithmetic, to i * dt). -/
theorem C4_clock_consistency [Field α] (ops : FloatOps α) (s : Step α)
    (n i : Nat) (dt : α) (htime : s.time = 0) (hstep : s.step = 0)
    (h : i < (simulate ops s n dt).length) :
    ((simulate ops s n dt).get ⟨i, h⟩).step = i ∧
    ((simulate ops s n dt).get ⟨i, h⟩).time = i * dt := by
  obtain ⟨h1, h2⟩ := simulate_get_step_time ops dt n s i h
  rw [h1, h2, htime, hstep]
  simp

/-- Concrete operations over the rationals used to instantiate witnesses. -/
def exOps : FloatOps ℚ := ⟨id, fun _ _ => 0, fun _ => 0, fun _ => 0⟩

/-- Concrete initial state over the rationals used to instantiate witnesses. -/
def exStep : Step ℚ :=
  Step.new (Body.new ⟨0, 0⟩) (Body.new ⟨0, 0⟩) (Body.new ⟨0, 0⟩)

/-- C4, witness: the theorem applied to a concrete one-tick run. -/
theorem C4_clock_consistency_witness :
    ((simulate exOps exStep 1 1).get ⟨0, by decide⟩).step = 0 ∧
    ((simulate exOps exStep 1 1).get ⟨0, by decide⟩).time = ((0 : Nat) : ℚ) * 1 :=
  C4_clock_consistency exOps exStep 1 0 1 rfl rfl (by decide)

/-- C5: within one tick, calculate_bodies and hence the whole velocity-update
phase calculate_step leave every position and mass unchanged; the position
update of Step::update keeps the fully accumulated velocities and advances
each position from its start-of-tick value using those velocities, so every
force computation of the tick reads start-of-tick positions. -/
theorem C5_phase_ordering [Field α] (ops : FloatOps α) (s : Step α) (dt : α)
    (i j k : Fin 3) :
    ((Step.calculate_bodies ops s i j dt).bodies k).position = (s.bodies k).position ∧
    ((Step.calculate_bodies ops s i j dt).bodies k).mass = (s.bodies k).mass ∧
    ((Step.calculate_step ops s dt).bodies k).position = (s.bodies k).position ∧
    ((Step.calculate_step ops s dt).bodies k).mass = (s.bodies k).mass ∧
    ((Step.update ops s dt).bodies k).velocity
      = ((Step.calculate_step ops s dt).bodies k).velocity ∧
    ((Step.update ops s dt).bodies k).position.x
      = (s.bodies k).position.x + ((Step.calculate_step ops s dt).bodies k).velocity.x * dt ∧
    ((Step.update ops s dt).bodies k).position.y
      = (s.bodies k).position.y + ((Step.calculate_step ops s dt).bodies k).velocity.y * dt := by
  refine ⟨calculate_bodies_position_eq ops s i j k dt,
          calculate_bodies_mass_eq ops s i j k dt,
          calculate_step_position_eq ops s k dt,
          calculate_step_mass_eq ops s k dt, ?_, ?_, ?_⟩
  · rfl
  · show ((Step.calculate_step ops s dt).bodies k).position.x
        + ((Step.calculate_step ops s dt).bodies k).velocity.x * dt
      = (s.bodies k).position.x + ((Step.calculate_step ops s dt).bodies k).velocity.x * dt
    rw [calculate_step_position_eq]
  · show ((Step.calculate_step ops s dt).bodies k).position.y
        + ((Step.calculate_step ops s dt).bodies k).velocity.y * dt
      = (s.bodies k).position.y + ((Step.calculate_step ops s dt).bodies k).velocity.y * dt
    rw [calculate_step_position_eq]

theorem simulate_mass_eq [Field α] (ops : FloatOps α) (dt : α) :
    ∀ (n : Nat) (s0 : Step α), ∀ s ∈ simulate ops s0 n dt, ∀ k,
      (s.bodies k).mass = (s0.bodies k).mass := by
  intro n
  induction n with
  | zero =>
    intro s0 s hs
    simp [simulate] at hs
  | succ m ih =>
    intro s0 s hs k
    simp only [simulate, List.mem_cons] at hs
    rcases hs with rfl | hs
    · show (Body.update ((Step.calculate_step ops s0 dt).bodies k) dt).mass
        = (s0.bodies k).mass
      simp [Body.update, calculate_step_mass_eq]
    · have h := ih (Step.next_step (Step.update ops s0 dt) dt) s hs k
      rw [h]
      show (Body.update ((Step.calculate_step ops s0 dt).bodies k) dt).mass
        = (s0.bodies k).mass
      simp [Body.update, calculate_step_mass_eq]

/-- C8: every Step produced by simulate from bodies built with Body::new has
every mass equal to 1 (in particular positive): no operation of the
integrator or driver changes a mass after construction. -/
theorem C8_mass_invariant [LinearOrderedField α] (ops : FloatOps α)
    (p1 p2 p3 : Vec2 α) (n : Nat) (dt : α) :
    ∀ s ∈ simulate ops (Step.new (Body.new p1) (Body.new p2) (Body.new p3)) n dt,
      ∀ k, (s.bodies k).mass = 1 ∧ (0 : α) < (s.bodies k).mass := by
  intro s hs k
  have h := simulate_mass_eq ops dt n
    (Step.new (Body.new p1) (Body.new p2) (Body.new p3)) s hs k
  have hm : ((Step.new (Body.new p1) (Body.new p2) (Body.new p3)).bodies k).mass
      = (1 : α) := by
    fin_cases k <;> rfl
  rw [h, hm]
  exact ⟨rfl, one_pos⟩

/-- C8, witness: the theorem applied to a concrete one-tick run. -/
theorem C8_mass_invariant_witness :
    ((Step.update exOps exStep 1).bodies 0).mass = 1 ∧
    (0 : ℚ) < ((Step.update exOps exStep 1).bodies 0).mass :=
  C8_mass_invariant exOps ⟨0, 0⟩ ⟨0, 0⟩ ⟨0, 0⟩ 1 1
    (Step.update exOps exStep 1) (by simp [simulate, exStep]) 0

/-- C9: the step counter, modelled by its mathematical value, satisfies: every
successor computed during a run of simulate from s with count n stays at most
2 ^ 32 - 1 (the u32 range) when s.step + n is at most 2 ^ 32 - 1, and the last
computed successor exceeds 2 ^ 32 - 1 when s.step + n does. -/
theorem C9_step_counter_range [Field α] (ops : FloatOps α) (s : Step α)
    (n : Nat) (dt : α) :
    (s.step + n ≤ 2 ^ 32 - 1 →
      ∀ (i : Nat) (h : i < (simulate ops s n dt).length),
        ((simulate ops s n dt).get ⟨i, h⟩).step + 1 ≤ 2 ^ 32 - 1) ∧
    (2 ^ 32 - 1 < s.step + n →
      ∀ (h : n - 1 < (simulate ops s n dt).length),
        2 ^ 32 - 1 < ((simulate ops s n dt).get ⟨n - 1, h⟩).step + 1) := by
  constructor
  · intro hb i h
    have h1 := (simulate_get_step_time ops dt n s i h).1
    rw [h1]
    have hi : i < n := by
      have hl := h
      rw [simulate_length] at hl
      exact hl
    omega
  · intro hb h
    have h1 := (simulate_get_step_time ops dt n s (n - 1) h).1
    rw [h1]
    have hn : 0 < n := by
      have hl := h
      rw [simulate_length] at hl
      omega
    omega

/-- C9, witness: the first half of the theorem applied to a concrete run. -/
theorem C9_step_counter_range_witness :
    ((simulate exOps exStep 2 1).get ⟨1, by decide⟩).step + 1 ≤ 2 ^ 32 - 1 :=
  (C9_step_counter_range exOps exStep 2 1).1 (by decide) 1 (by decide)

/-- Left-pads the fractional part to exactly 4 digits. -/
def pad4 (n : Nat) : String :=
  if n < 10 then "000" ++ toString n
  else if n < 100 then "00" ++ toString n
  else if n < 1000 then "0" ++ toString n
  else toString n

/-- Models the fixed-precision rendering of a scalar with 4 decimal places
used by the Display impls (round to nearest, ties to even, sign kept). -/
def fmt4 (q : ℚ) : String :=
  let sgn := if q < 0 then "-" else ""
  let t : ℚ := |q| * 10000
  let fl : Int := ⌊t⌋
  let fr : ℚ := t - fl
  let m : Int :=
    if 1 / 2 < fr then fl + 1
    else if fr < 1 / 2 then fl
    else if fl % 2 = 0 then fl else fl + 1
  let n : Nat := m.toNat
  sgn ++ toString (n / 10000) ++ "." ++ pad4 (n % 10000)

/-- Embeds the Display impl for Body: the position with each coordinate
rendered to 4 decimal places. -/
def Body.display (b : Body ℚ) : String :=
  "(" ++ fmt4 b.position.x ++ ", " ++ fmt4 b.position.y ++ ")"

/-- Embeds the Display impl for Step: the literal prefix, then one space and
one body rendering per body, then an empty write. -/
def Step.display (s : Step ℚ) : String :=
  ([0, 1, 2] : List (Fin 3)).foldl
    (fun acc k => acc ++ " " ++ Body.display (s.bodies k)) "Step:" ++ ""

/-- C7, counterexample: formatting a concrete Step does not produce the bare
three-position string the claim states; the output carries a leading
"Step: " prefix. -/
theorem C7_display_counterexample :
    Step.display (Step.new (Body.new ⟨3089693008 / 10 ^ 10, 4236727692 / 10 ^ 10⟩)
        (Body.new ⟨-1 / 2, 0⟩) (Body.new ⟨1 / 2, 0⟩))
      ≠ "(0.3090, 0.4237) (-0.5000, 0.0000) (0.5000, 0.0000)" := by
  decide

/-- C7, amended: formatting a Step produces the prefix "Step: " followed by
the three body positions in index order, each coordinate rendered with
exactly 4 decimal places. -/
theorem C7_display_format (s : Step ℚ) :
    Step.display s
      = "Step: (" ++ fmt4 (s.bodies 0).position.x ++ ", "
          ++ fmt4 (s.bodies 0).position.y
        ++ ") (" ++ fmt4 (s.bodies 1).position.x ++ ", "
          ++ fmt4 (s.bodies 1).position.y
        ++ ") (" ++ fmt4 (s.bodies 2).position.x ++ ", "
          ++ fmt4 (s.bodies 2).position.y ++ ")" := by
  apply String.ext
  simp only [Step.display, Body.display, List.foldl_cons, List.foldl_nil,
    String.data_append, List.append_assoc]
  rfl
